import Mathlib

/-!
Verification of the NBP exchange-rate console application
(`exchange_rate_app.py`): a shallow embedding of its data model,
fetch orchestration and display routines, with theorems checking the
specification's claims against the embedded code.

Modelling conventions:
* Dates are integers (days on a timeline); `today - i` is the date `i`
  days before `today`.  The textual `YYYY-MM-DD` rendering of a date is
  abstracted to `toString` of the integer.
* The network is a function `Int → HttpResponse` from the requested
  date to the response the server would give.
* `asyncio.gather` over coroutines that either return a value or raise
  is modelled by `gather` over `Except`: it preserves request order and
  propagates a failure of any task as failure of the whole join.
* Console output of a display routine is the list of printed lines;
  `input()` values are passed as explicit string arguments.
* The decimal `mid` rate is kept as its printed string form, since the
  program only ever interpolates it into output.
-/

namespace ExchangeRateApp

/-- One entry of a rate table: `{currency, code, mid}` as parsed from the
JSON response. -/
structure CurrencyRate where
  currency : String
  code : String
  mid : String
deriving DecidableEq, Repr

/-- One table object of the JSON response, holding the `rates` array. -/
structure TableObj where
  rates : List CurrencyRate
deriving DecidableEq, Repr

/-- The parsed JSON body for one date: an array of table objects. -/
abbrev RateTable := List TableObj

/-- One slot of the result list: `none` models Python `None` (HTTP 404),
`some` the parsed JSON body. -/
abbrev Slot := Option RateTable

/-- The ordered result list produced by the fetch phase. -/
abbrev ResultSet := List Slot

/-- An HTTP response: status code and (when the status is 200) the
parsed JSON body. -/
structure HttpResponse where
  status : Nat
  body : RateTable

/-- `NBPRateProvider.get_rates`: GET the table for `date`; status 200
returns the parsed body, 404 returns `None`, anything else raises
`RuntimeError` carrying the status. -/
def get_rates (http : Int → HttpResponse) (date : Int) : Except Nat Slot :=
  let r := http date
  if r.status = 200 then .ok (some r.body)
  else if r.status = 404 then .ok none
  else .error r.status

/-- `asyncio.gather` over fallible tasks: all results in request order,
or failure of the join if any task failed. -/
def gather {ε α : Type} : List (Except ε α) → Except ε (List α)
  | [] => .ok []
  | t :: ts =>
    match t with
    | .error e => .error e
    | .ok x =>
      match gather ts with
      | .error e => .error e
      | .ok xs => .ok (x :: xs)

/-- The task list built in `UserInteraction.main`: one `get_rates` call
per `i in range(days)`, for the date `today - i`. -/
def fetch_tasks (http : Int → HttpResponse) (today : Int) (days : Nat) :
    List (Except Nat Slot) :=
  (List.range days).map (fun i : Nat => get_rates http (today - (i : Int)))

/-- The fetch phase of `UserInteraction.main`:
`results = await asyncio.gather(*tasks)`. -/
def fetch_results (http : Int → HttpResponse) (today : Int) (days : Nat) :
    Except Nat ResultSet :=
  gather (fetch_tasks http today days)

/-- Left-justification to a field width, as Python `f"{s:36}"`. -/
def ljust (s : String) (w : Nat) : String :=
  s ++ String.mk (List.replicate (w - s.length) ' ')

/-- The formatted output line
`f"{currency['currency']:36} {currency['code']:4} {currency['mid']}"`. -/
def fmtLine (r : CurrencyRate) : String :=
  ljust r.currency 36 ++ " " ++ ljust r.code 4 ++ " " ++ r.mid

/-- The per-day header `f"Data as of day {date_to_print}:"`. -/
def dateHeader (d : Int) : String :=
  "Data as of day " ++ toString d ++ ":"

/-- Python `str.upper()` on the ASCII inputs the program handles:
uppercase every character. -/
def upper (s : String) : String := String.mk (s.data.map Char.toUpper)

/-- The digits of a Python integer literal, as a number: `some` when the
character list is non-empty and all digits. -/
def parseNatDigits (cs : List Char) : Option Nat :=
  if cs = [] then none
  else if cs.all Char.isDigit then
    some (cs.foldl (fun n c => n * 10 + (c.toNat - 48)) 0)
  else none

/-- Python `int(...)` on a day-count input line: an optional sign
followed by digits; anything else raises `ValueError`, modelled as
`none`. -/
def parse_int (s : String) : Option Int :=
  match s.data with
  | '-' :: rest => (parseNatDigits rest).map (fun n => -(n : Int))
  | '+' :: rest => (parseNatDigits rest).map (fun n => (n : Int))
  | cs => (parseNatDigits cs).map (fun n => (n : Int))

/-- The inner loop of `display_basic_currencies`: one line per rate
whose code is EUR or USD, in table order. -/
def basicLines : List CurrencyRate → List String
  | [] => []
  | r :: rs =>
    if r.code = "EUR" ∨ r.code = "USD" then fmtLine r :: basicLines rs
    else basicLines rs

/-- The body printed for one slot by the basic displayer: the branch
`if result and result != []` (a non-empty parsed list) prints the EUR/USD
lines of `result[0]["rates"]`, otherwise `"No data."`. -/
def basicBody : Slot → List String
  | some (t :: _) => basicLines t.rates
  | _ => ["No data."]

/-- The `for i, result in enumerate(results, 1)` loop of
`display_basic_currencies`: header for date `today - (i - 1)`, slot
body, then a blank separator line. -/
def basicGo (today : Int) : Nat → ResultSet → List String
  | _, [] => []
  | i, result :: rest =>
    (dateHeader (today - ((i : Int) - 1)) :: basicBody result) ++ [""]
      ++ basicGo today (i + 1) rest

/-- `BasicRateDisplayer.display_basic_currencies`, as the list of
printed lines. -/
def display_basic_currencies (today : Int) (results : ResultSet) :
    List String :=
  if results = [] then ["No data available."]
  else basicGo today 1 results

/-- The inner loop of `display_additional_currencies`: print the first
rate whose code equals the chosen code, then `break`. -/
def addLines (choice : String) : List CurrencyRate → List String
  | [] => []
  | r :: rs => if r.code = choice then [fmtLine r] else addLines choice rs

/-- The body printed for one slot by the additional displayer. -/
def addBody (choice : String) : Slot → List String
  | some (t :: _) => addLines choice t.rates
  | _ => ["No data."]

/-- The `for i, result in enumerate(results, 1)` loop of
`display_additional_currencies`. -/
def addGo (today : Int) (choice : String) : Nat → ResultSet → List String
  | _, [] => []
  | i, result :: rest =>
    (dateHeader (today - ((i : Int) - 1)) :: addBody choice result) ++ [""]
      ++ addGo today choice (i + 1) rest

/-- `AdditionalRateDisplayer.display_additional_currencies`, as the list
of printed lines; `inp` is the string typed at the currency prompt,
normalized by `.upper()`. -/
def display_additional_currencies (today : Int) (available : List String)
    (inp : String) (results : ResultSet) : List String :=
  if available = [] then ["No additional currencies available."]
  else
    let choice := upper inp
    if choice ∈ available then addGo today choice 1 results
    else ["There is no such currency on the list."]

/-- The action the Y/N prompt loop takes on one line of input. -/
inductive LoopAction
  | showAdditional
  | exitLoop
  | invalid
deriving DecidableEq, Repr

/-- One iteration of the `while True` prompt loop in
`UserInteraction.main`. -/
def loop_step (choice : String) : LoopAction :=
  if upper choice = "Y" then .showAdditional
  else if upper choice = "N" then .exitLoop
  else .invalid

/-- Outcome of the `__main__` guard: either an error message was printed
(ValueError from `int(...)` or from the explicit `days > 10` raise) or
the interaction runs with the parsed day count. -/
inductive MainOutcome
  | invalidInput (msg : String)
  | run (days : Int)
deriving DecidableEq, Repr

/-- The `__main__` block's decision on the day-count input line. -/
def main_decide (input : String) : MainOutcome :=
  match parse_int input with
  | none => .invalidInput ("Error: invalid literal for int: " ++ input)
  | some d =>
    if d > 10 then .invalidInput "Error: The number of days cannot be more than 10"
    else .run d

/-- The network requests the whole program issues for a given day-count
input line: none at all when the guard rejects it, otherwise the task
list of the fetch phase. -/
def program_tasks (http : Int → HttpResponse) (today : Int)
    (input : String) : List (Except Nat Slot) :=
  match main_decide input with
  | .invalidInput _ => []
  | .run d => fetch_tasks http today d.toNat

/-- The fetch phase followed by the basic display: the display runs only
when `asyncio.gather` succeeded. -/
def main_run (http : Int → HttpResponse) (today : Int) (days : Nat) :
    Except Nat (List String) :=
  match fetch_results http today days with
  | .error e => .error e
  | .ok rs => .ok (display_basic_currencies today rs)

/-- One call of the basic displayer seen as a state transformer: it
produces output and hands back the result list it was given (the Python
code only reads `results`). -/
def display_basic_run (today : Int) (results : ResultSet) :
    List String × ResultSet :=
  (display_basic_currencies today results, results)

/-! ### Spec-side renderings

The following definitions transcribe the *specification's* wording of the
display contracts (§4.3 and §4.4), to be compared with the code-side
definitions above: 0-based day index `i` labelled `today - i`, a filter
of the table for EUR/USD lines, and a first-match lookup for the chosen
code. -/

/-- Spec wording of one day's block of BasicDisplay: date header, one
line per EUR/USD currency in table order (or `"No data."` when the slot
is absent or empty), then a blank separator line. -/
def specBasicBlock (today : Int) (i : Nat) (slot : Slot) : List String :=
  dateHeader (today - (i : Int)) ::
    (match slot with
     | some (t :: _) =>
       (t.rates.filter (fun r => r.code == "EUR" || r.code == "USD")).map fmtLine
     | _ => ["No data."]) ++ [""]

/-- Spec wording of `render_basic`: the no-data message on an empty
result set, otherwise the concatenation of the per-day blocks. -/
def render_basic_spec (today : Int) (results : ResultSet) : List String :=
  if results = [] then ["No data available."]
  else ((results.enum).map (fun p => specBasicBlock today p.1 p.2)).flatten

/-- Spec wording of one day's block of AdditionalDisplay: date header,
the first rate matching the chosen code (nothing when the code is not in
that day's table, `"No data."` when the slot is absent or empty), then a
blank separator line. -/
def specAddBlock (today : Int) (choice : String) (i : Nat) (slot : Slot) :
    List String :=
  dateHeader (today - (i : Int)) ::
    (match slot with
     | some (t :: _) =>
       ((t.rates.find? (fun r => r.code == choice)).map fmtLine).toList
     | _ => ["No data."]) ++ [""]

/-- Spec wording of `render_additional`: the empty-set message, the
no-such-currency message on an unavailable code, otherwise the per-day
blocks for the normalized code. -/
def render_additional_spec (today : Int) (available : List String)
    (inp : String) (results : ResultSet) : List String :=
  if available = [] then ["No additional currencies available."]
  else if upper inp ∈ available then
    ((results.enum).map (fun p => specAddBlock today (upper inp) p.1 p.2)).flatten
  else ["There is no such currency on the list."]

/-- A constant-response server, used to instantiate the theorems on
concrete inputs. -/
def httpConst (st : Nat) : Int → HttpResponse := fun _ => ⟨st, []⟩

/-! ### Helper lemmas -/

theorem basicLines_eq_filter (rs : List CurrencyRate) :
    basicLines rs
      = (rs.filter (fun r => r.code == "EUR" || r.code == "USD")).map fmtLine := by
  induction rs with
  | nil => rfl
  | cons r rs ih =>
    by_cases h : r.code = "EUR" ∨ r.code = "USD"
    · simp [basicLines, List.filter_cons, h, ih]
    · push_neg at h
      simp [basicLines, List.filter_cons, h.1, h.2, ih]

theorem addLines_eq_find (c : String) (rs : List CurrencyRate) :
    addLines c rs = ((rs.find? (fun r => r.code == c)).map fmtLine).toList := by
  induction rs with
  | nil => rfl
  | cons r rs ih =>
    by_cases h : r.code = c
    · simp [addLines, List.find?_cons, h]
    · simp [addLines, List.find?_cons, h, ih]

theorem basicGo_eq_enumFrom (today : Int) (l : ResultSet) (n : Nat) :
    basicGo today (n + 1) l
      = ((List.enumFrom n l).map (fun p => specBasicBlock today p.1 p.2)).flatten := by
  induction l generalizing n with
  | nil => simp [basicGo]
  | cons a rest ih =>
    have hc : today - (((n + 1 : Nat) : Int) - 1) = today - (n : Int) := by
      push_cast; ring
    rw [List.enumFrom_cons, List.map_cons, List.flatten_cons]
    simp only [basicGo, ih n.succ]
    match a with
    | none => simp [specBasicBlock, basicBody, hc]
    | some [] => simp [specBasicBlock, basicBody, hc]
    | some (t :: ts) =>
      simp [specBasicBlock, basicBody, hc, basicLines_eq_filter]

theorem addGo_eq_enumFrom (today : Int) (c : String) (l : ResultSet) (n : Nat) :
    addGo today c (n + 1) l
      = ((List.enumFrom n l).map (fun p => specAddBlock today c p.1 p.2)).flatten := by
  induction l generalizing n with
  | nil => simp [addGo]
  | cons a rest ih =>
    have hc : today - (((n + 1 : Nat) : Int) - 1) = today - (n : Int) := by
      push_cast; ring
    rw [List.enumFrom_cons, List.map_cons, List.flatten_cons]
    simp only [addGo, ih n.succ]
    match a with
    | none => simp [specAddBlock, addBody, hc]
    | some [] => simp [specAddBlock, addBody, hc]
    | some (t :: ts) =>
      simp [specAddBlock, addBody, hc, addLines_eq_find]

theorem gather_ok_eq {ε α : Type} (ts : List (Except ε α)) (rs : List α)
    (h : gather ts = .ok rs) : ts = rs.map Except.ok := by
  induction ts generalizing rs with
  | nil =>
    simp only [gather] at h
    cases h
    rfl
  | cons t ts ih =>
    cases t with
    | error e => exact absurd h (by simp [gather])
    | ok x =>
      cases hg : gather ts with
      | error e =>
        simp only [gather, hg] at h
        exact Except.noConfusion h
      | ok xs =>
        simp only [gather, hg] at h
        cases h
        simp [ih xs hg]

theorem gather_error_of_mem {ε α : Type} (ts : List (Except ε α)) (e : ε)
    (h : Except.error e ∈ ts) : ∃ er, gather ts = .error er := by
  induction ts with
  | nil => cases h
  | cons t ts ih =>
    cases t with
    | error e2 => exact ⟨e2, by simp [gather]⟩
    | ok x =>
      have h2 : Except.error e ∈ ts := by
        rcases List.mem_cons.mp h with h1 | h1
        · cases h1
        · exact h1
      obtain ⟨er, her⟩ := ih h2
      exact ⟨er, by simp [gather, her]⟩

theorem basicGo_append (today : Int) (l1 l2 : ResultSet) (i : Nat) :
    basicGo today i (l1 ++ l2)
      = basicGo today i l1 ++ basicGo today (i + l1.length) l2 := by
  induction l1 generalizing i with
  | nil => simp [basicGo]
  | cons a rest ih =>
    have h1 : i + 1 + rest.length = i + (rest.length + 1) := by omega
    simp only [List.cons_append, List.append_eq, basicGo, List.length_cons, ih (i + 1), h1,
      List.append_assoc]

theorem addGo_append (today : Int) (c : String) (l1 l2 : ResultSet) (i : Nat) :
    addGo today c i (l1 ++ l2)
      = addGo today c i l1 ++ addGo today c (i + l1.length) l2 := by
  induction l1 generalizing i with
  | nil => simp [addGo]
  | cons a rest ih =>
    have h1 : i + 1 + rest.length = i + (rest.length + 1) := by omega
    simp only [List.cons_append, List.append_eq, addGo, List.length_cons, ih (i + 1), h1,
      List.append_assoc]

theorem fetch_tasks_getElem (http : Int → HttpResponse) (today : Int)
    (days i : Nat) (hi : i < days) :
    (fetch_tasks http today days)[i]?
      = some (get_rates http (today - (i : Int))) := by
  unfold fetch_tasks
  rw [List.getElem?_map, List.getElem?_range hi, Option.map_some']

theorem addGo_ne_singleton (today : Int) (c : String) (i : Nat)
    (results : ResultSet) (s : String) : addGo today c i results ≠ [s] := by
  intro h
  have hl := congrArg List.length h
  cases results with
  | nil => simp [addGo] at hl
  | cons a rest => simp [addGo] at hl

/-! ### Claim theorems -/

/-- Claim C1: for every day count in [1,10], a successful fetch phase
yields a result list of length exactly `days`, whose slot `i` holds the
value `get_rates` returned for the date `today - i` — positional order
matches request order. -/
theorem fetch_range_ordered (http : Int → HttpResponse) (today : Int)
    (days : Nat) (h1 : 1 ≤ days) (h10 : days ≤ 10) (rs : ResultSet)
    (hok : fetch_results http today days = .ok rs) :
    rs.length = days ∧
      ∀ i, i < days →
        get_rates http (today - (i : Int)) = .ok (rs.getD i none) := by
  have heq : fetch_tasks http today days = rs.map Except.ok :=
    gather_ok_eq _ rs hok
  have hlen : rs.length = days := by
    have hc := congrArg List.length heq
    simpa only [fetch_tasks, List.length_map, List.length_range]
      using hc.symm
  refine ⟨hlen, fun i hi => ?_⟩
  have h2 : (fetch_tasks http today days)[i]? = (rs.map Except.ok)[i]? := by
    rw [heq]
  rw [fetch_tasks_getElem http today days i hi, List.getElem?_map] at h2
  cases hr : rs[i]? with
  | none => simp [hr] at h2
  | some v =>
    rw [hr, Option.map_some'] at h2
    injection h2 with h3
    rw [List.getD_eq_getElem?_getD, hr]
    simpa using h3

/-- Witness for claim C1: three days against an all-200 server. -/
theorem fetch_range_ordered_witness :
    ([some [], some [], some []] : ResultSet).length = 3 ∧
      get_rates (httpConst 200) (0 - ((1 : Nat) : Int))
        = .ok (([some [], some [], some []] : ResultSet).getD 1 none) := by
  have h := fetch_range_ordered (httpConst 200) 0 3 (by decide) (by decide)
    [some [], some [], some []] rfl
  exact ⟨h.1, h.2 1 (by decide)⟩

/-- Claim C6: if any of the gathered `get_rates` calls fails, the whole
orchestration fails: the fetch returns an error and no result list, not
even a partial one, reaches the display. -/
theorem fetch_error_aborts (http : Int → HttpResponse) (today : Int)
    (days : Nat) (i : Nat) (e : Nat) (hi : i < days)
    (he : get_rates http (today - (i : Int)) = .error e) :
    ∃ er, fetch_results http today days = .error er ∧
      main_run http today days = .error er := by
  have hmem : Except.error e ∈ fetch_tasks http today days := by
    have hr : i ∈ List.range days := List.mem_range.mpr hi
    have h2 : get_rates http (today - (i : Int))
        ∈ List.map (fun i : Nat => get_rates http (today - (i : Int)))
            (List.range days) :=
      List.mem_map_of_mem _ hr
    rw [he] at h2
    exact h2
  obtain ⟨er, her⟩ := gather_error_of_mem _ e hmem
  have hf : fetch_results http today days = .error er := her
  refine ⟨er, hf, ?_⟩
  simp only [main_run, hf]

/-- Witness for claim C6: a server answering 500 aborts the whole run. -/
theorem fetch_error_aborts_witness :
    fetch_results (httpConst 500) 0 1 = .error 500 ∧
    main_run (httpConst 500) 0 1 = .error 500 := by
  obtain ⟨er, h1, h2⟩ :=
    fetch_error_aborts (httpConst 500) 0 1 0 500 (by decide) rfl
  have h3 : (Except.error er : Except Nat ResultSet) = .error 500 :=
    h1.symm.trans rfl
  injection h3 with h4
  subst h4
  exact ⟨h1, h2⟩

/-- Claim C3: an absent slot (`None`) renders distinctly from a present
slot holding a table with no rates, in both displays: the absent slot
contributes a `"No data."` line that the present-but-empty slot does
not, so the two outputs differ. -/
theorem absent_renders_distinct_from_empty (today : Int)
    (pre suf : ResultSet) (available : List String) (inp : String)
    (hmem : upper inp ∈ available) :
    display_basic_currencies today (pre ++ none :: suf)
        ≠ display_basic_currencies today (pre ++ some [⟨[]⟩] :: suf) ∧
    display_additional_currencies today available inp (pre ++ none :: suf)
        ≠ display_additional_currencies today available inp
            (pre ++ some [⟨[]⟩] :: suf) := by
  have ha : available ≠ [] := List.ne_nil_of_mem hmem
  have hne1 : (pre ++ none :: suf : ResultSet) ≠ [] := by simp
  have hne2 : (pre ++ some [⟨[]⟩] :: suf : ResultSet) ≠ [] := by simp
  constructor
  · intro h
    simp only [display_basic_currencies, if_neg hne1, if_neg hne2] at h
    have h2 := congrArg List.length h
    simp only [show (none :: suf : ResultSet) = [none] ++ suf from rfl,
      show ((some [⟨[]⟩] : Slot) :: suf : ResultSet) = [some [⟨[]⟩]] ++ suf
        from rfl,
      basicGo_append, List.length_append] at h2
    simp [basicGo, basicBody, basicLines] at h2
  · intro h
    simp only [display_additional_currencies, if_neg ha, hmem, if_pos] at h
    have h2 := congrArg List.length h
    simp only [show (none :: suf : ResultSet) = [none] ++ suf from rfl,
      show ((some [⟨[]⟩] : Slot) :: suf : ResultSet) = [some [⟨[]⟩]] ++ suf
        from rfl,
      addGo_append, List.length_append] at h2
    simp [addGo, addBody, addLines] at h2

/-- Witness for claim C3 on one-slot result sets. -/
theorem absent_renders_distinct_from_empty_witness :
    display_basic_currencies 0 [none]
        ≠ display_basic_currencies 0 [some [⟨[]⟩]] ∧
    display_additional_currencies 0 ["GBP"] "GBP" [none]
        ≠ display_additional_currencies 0 ["GBP"] "GBP" [some [⟨[]⟩]] := by
  have h := absent_renders_distinct_from_empty 0 [] [] ["GBP"] "GBP"
    (by decide)
  simpa using h

/-- Claim C8: both interactive inputs are case-insensitive through
uppercase normalization: a lowercase "y"/"n" at the re-prompt acts like
"Y"/"N", and a lowercase currency code such as "gbp" is normalized and
matched when "GBP" is available. -/
theorem inputs_case_insensitive :
    loop_step "y" = loop_step "Y" ∧ loop_step "n" = loop_step "N" ∧
    ∀ (today : Int) (available : List String) (results : ResultSet),
      "GBP" ∈ available →
        display_additional_currencies today available "gbp" results
            = display_additional_currencies today available "GBP" results ∧
          display_additional_currencies today available "gbp" results
            ≠ ["There is no such currency on the list."] := by
  refine ⟨by decide, by decide, fun today available results hmem => ?_⟩
  have ha : available ≠ [] := List.ne_nil_of_mem hmem
  have hup : upper "gbp" = "GBP" := by decide
  have hup2 : upper "GBP" = "GBP" := by decide
  have hd : display_additional_currencies today available "gbp" results
      = addGo today "GBP" 1 results := by
    simp [display_additional_currencies, hup, ha, hmem]
  have hd2 : display_additional_currencies today available "GBP" results
      = addGo today "GBP" 1 results := by
    simp [display_additional_currencies, hup2, ha, hmem]
  refine ⟨hd.trans hd2.symm, ?_⟩
  rw [hd]
  exact addGo_ne_singleton today "GBP" 1 results _

/-- Witness for claim C8 with the available set containing GBP. -/
theorem inputs_case_insensitive_witness :
    loop_step "y" = loop_step "Y" ∧
    display_additional_currencies 0 ["GBP"] "gbp" []
        = display_additional_currencies 0 ["GBP"] "GBP" [] ∧
    display_additional_currencies 0 ["GBP"] "gbp" []
        ≠ ["There is no such currency on the list."] := by
  have h := inputs_case_insensitive
  have h3 := h.2.2 0 ["GBP"] [] (by decide)
  exact ⟨h.1, h3.1, h3.2⟩

/-- Claim C2: for every date, `get_rates` returns the parsed JSON body
when the HTTP status is 200, returns `none` when the status is 404, and
for every other status fails with an error carrying that status code —
never a value. -/
theorem get_rates_status_cases (http : Int → HttpResponse) (date : Int) :
    ((http date).status = 200 →
      get_rates http date = .ok (some (http date).body)) ∧
    ((http date).status = 404 → get_rates http date = .ok none) ∧
    ((http date).status ≠ 200 → (http date).status ≠ 404 →
      get_rates http date = .error (http date).status) := by
  refine ⟨fun h => ?_, fun h => ?_, fun h1 h2 => ?_⟩
  · simp [get_rates, h]
  · simp [get_rates, h]
  · simp [get_rates, h1, h2]

/-- Witness for claim C2 at statuses 200, 404 and 500. -/
theorem get_rates_status_cases_witness :
    get_rates (httpConst 200) 0 = .ok (some []) ∧
    get_rates (httpConst 404) 0 = .ok none ∧
    get_rates (httpConst 500) 0 = .error 500 :=
  ⟨(get_rates_status_cases (httpConst 200) 0).1 rfl,
   (get_rates_status_cases (httpConst 404) 0).2.1 rfl,
   (get_rates_status_cases (httpConst 500) 0).2.2 (by decide) (by decide)⟩

/-- Claim C4: `display_basic_currencies` renders exactly as the spec's
BasicDisplay contract: the no-data message on an empty result set,
otherwise per day a date header, one formatted line per EUR/USD entry in
table order, a `"No data."` line for absent or empty days, and a blank
separator line — no extra or missing lines. -/
theorem display_basic_matches_spec (today : Int) (results : ResultSet) :
    display_basic_currencies today results = render_basic_spec today results := by
  cases results with
  | nil => rfl
  | cons a rest =>
    have h : (a :: rest : ResultSet) ≠ [] := by simp
    rw [display_basic_currencies, render_basic_spec, if_neg h, if_neg h]
    exact basicGo_eq_enumFrom today (a :: rest) 0

/-- Claim C5: `display_additional_currencies` renders exactly as the
spec's AdditionalDisplay contract: the empty-set message when no
additional currencies are available, exactly the no-such-currency
message when the normalized code is unavailable, and otherwise per day
at most one matched line (the first match), `"No data."` for absent or
empty days, and a blank separator line. -/
theorem display_additional_matches_spec (today : Int)
    (available : List String) (inp : String) (results : ResultSet) :
    display_additional_currencies today available inp results
      = render_additional_spec today available inp results := by
  by_cases ha : available = []
  · simp [display_additional_currencies, render_additional_spec, ha]
  · by_cases hm : upper inp ∈ available
    · simp only [display_additional_currencies, render_additional_spec,
        if_neg ha, if_pos hm]
      exact addGo_eq_enumFrom today (upper inp) results 0
    · simp [display_additional_currencies, render_additional_spec, ha, hm]

/-- Claim C7: an input line that is not a valid integer, or parses to
an integer greater than 10, makes the program report invalid input and
issue no network calls at all — the fetch phase is never entered. -/
theorem invalid_input_no_network (http : Int → HttpResponse) (today : Int)
    (s : String)
    (h : parse_int s = none ∨ ∃ d, parse_int s = some d ∧ d > 10) :
    (∃ m, main_decide s = .invalidInput m) ∧
      program_tasks http today s = [] := by
  rcases h with h | ⟨d, hd, hgt⟩
  · have hm : main_decide s
        = .invalidInput ("Error: invalid literal for int: " ++ s) := by
      unfold main_decide
      rw [h]
    exact ⟨⟨_, hm⟩, by simp [program_tasks, hm]⟩
  · have hm : main_decide s
        = .invalidInput "Error: The number of days cannot be more than 10" := by
      unfold main_decide
      rw [hd]
      simp [hgt]
    exact ⟨⟨_, hm⟩, by simp [program_tasks, hm]⟩

/-- Witness for claim C7 on the over-limit input line `"11"`. -/
theorem invalid_input_no_network_witness :
    main_decide "11"
        = .invalidInput "Error: The number of days cannot be more than 10" ∧
      program_tasks (httpConst 200) 0 "11" = [] := by
  have h := invalid_input_no_network (httpConst 200) 0 "11"
    (Or.inr ⟨11, by decide, by decide⟩)
  exact ⟨by decide, h.2⟩

/-- Claim C10: a nonpositive integer day count is not rejected — the
guard only rejects values above 10 — the fetch phase issues zero
network calls (the task list is empty), and the basic display prints
the no-data message on the resulting empty result list. -/
theorem nonpositive_days_empty_run (http : Int → HttpResponse)
    (today : Int) (s : String) (d : Int) (hp : parse_int s = some d)
    (hd : d ≤ 0) :
    main_decide s = .run d ∧ program_tasks http today s = [] ∧
      fetch_results http today d.toNat = .ok [] ∧
      main_run http today d.toNat = .ok ["No data available."] := by
  have hng : ¬ d > 10 := by omega
  have hm : main_decide s = .run d := by
    unfold main_decide
    rw [hp]
    simp [hng]
  have ht : d.toNat = 0 := Int.toNat_eq_zero.mpr hd
  refine ⟨hm, ?_, ?_, ?_⟩
  · simp [program_tasks, hm, ht, fetch_tasks]
  · rw [ht]
    rfl
  · rw [ht]
    rfl

/-- Witness for claim C10 on the input line `"-3"`. -/
theorem nonpositive_days_empty_run_witness :
    main_decide "-3" = .run (-3) ∧
      program_tasks (httpConst 200) 0 "-3" = [] ∧
      fetch_results (httpConst 200) 0 (-3 : Int).toNat = .ok [] ∧
      main_run (httpConst 200) 0 (-3 : Int).toNat
        = .ok ["No data available."] :=
  nonpositive_days_empty_run (httpConst 200) 0 "-3" (-3) (by decide)
    (by decide)

/-- Claim C9: rendering the same result set twice yields identical
output: the displayer hands back its input unchanged, so the second
call, run on the state left by the first, prints the same lines. -/
theorem display_basic_second_run_eq (today : Int) (results : ResultSet) :
    (display_basic_run today (display_basic_run today results).2).1
      = (display_basic_run today results).1 := rfl

end ExchangeRateApp
